import Mathlib

/-!
Shallow embedding of `impacket/examples/name_generators.py`.

Randomness is made explicit: every `random.*` draw the Python code performs
becomes an explicit parameter of the Lean function (an index into the
population for `random.choice`, a value `r` with `r <` total weight for
`random.choices(..., weights)`, the drawn integer itself for
`random.randint`).  `random.choices(population, weights)` draws a uniform
value in `[0, total)` and picks the first candidate whose cumulative weight
range contains it; `weightedChoice` below is that cumulative scan.
-/

namespace NameGen

/-- Cumulative-sum selection used by Python's `random.choices(p, weights=w)`:
given a draw `r` in `[0, total weight)`, return the first candidate whose
left-closed right-open cumulative range contains `r`. -/
def weightedChoice {α : Type} : List (α × Nat) → Nat → Option α
  | [], _ => none
  | (v, w) :: rest, r => if r < w then some v else weightedChoice rest (r - w)

/-! ## PathGenerator -/

/-- `PathGenerator.PATHS_BY_SHARE` (the Python dict as an association list,
in declaration order). -/
def PATHS_BY_SHARE : List (String × List (String × Nat)) :=
  [ ("C$",
      [ ("Users\\Public\\Downloads\\", 95)
      , ("ProgramData\\", 90)
      , ("Windows\\Logs\\", 70)
      , ("Windows\\Debug\\", 65)
      , ("Temp\\", 50) ])
  , ("ADMIN$",
      [ ("Logs\\", 80)
      , ("Debug\\", 75) ]) ]

/-- `PathGenerator.FALLBACK_PATHS`. -/
def FALLBACK_PATHS : List (String × String) :=
  [ ("C$", "Windows\\Temp\\")
  , ("ADMIN$", "Temp\\") ]

/-- Lines 212-215 and 241-244 of the source: uppercase the share name and
append a trailing `'$'` when absent.  `share_name.upper()` is embedded as a
character-wise `Char.toUpper` map and `share_upper.endswith('$')` as a test
on the last character (equivalent for the single-character suffix). -/
def normalizeShare (share_name : String) : String :=
  let share_upper := String.mk (share_name.data.map Char.toUpper)
  if share_upper.data.getLast? = some '$' then share_upper else share_upper ++ "$"

/-- The body of `get_path_for_share` after normalization (lines 217-229):
dict-membership test, fallback `get` with default `'Temp\\'`, priority
branch `paths_with_weights[0][0]`, weighted branch
`random.choices(paths, weights=weights)[0]` with draw `r`. -/
def resolvePath (share_upper : String) (weighted : Bool) (r : Nat) : String :=
  match PATHS_BY_SHARE.lookup share_upper with
  | none => (FALLBACK_PATHS.lookup share_upper).getD "Temp\\"
  | some paths_with_weights =>
      if !weighted then (paths_with_weights.headD ("Temp\\", 0)).1
      else (weightedChoice paths_with_weights r).getD "Temp\\"

/-- `PathGenerator.get_path_for_share(share_name, weighted)`; `r` is the
uniform draw consumed by the weighted branch (and only by it). -/
def get_path_for_share (share_name : String) (weighted : Bool) (r : Nat) : String :=
  resolvePath (normalizeShare share_name) weighted r

/-- `PathGenerator.get_fallback_path(share_name)` (lines 241-246). -/
def get_fallback_path (share_name : String) : String :=
  (FALLBACK_PATHS.lookup (normalizeShare share_name)).getD "Temp\\"

/-! ## Decimal rendering

Python's `str(n)` for a non-negative integer, as a list of characters.
Implemented with structural fuel (`n + 1` steps always suffice, since the
value shrinks by a factor of ten each step) so that it reduces in the
kernel. -/

def natDigitsGo : Nat → Nat → List Char → List Char
  | 0, _, acc => acc
  | fuel + 1, n, acc =>
    if n < 10 then Char.ofNat (48 + n) :: acc
    else natDigitsGo fuel (n / 10) (Char.ofNat (48 + n % 10) :: acc)

/-- Decimal digits of `n`, most significant first (`str(n)` in Python). -/
def natDigits (n : Nat) : List Char := natDigitsGo (n + 1) n []

/-- Zero-padded decimal of width `w` (`strftime`'s `%0wd` fields). -/
def padDigits (w n : Nat) : List Char :=
  List.replicate (w - (natDigits n).length) '0' ++ natDigits n

/-! ## FileNameGenerator -/

/-- `FileNameGenerator.TEMP_PREFIXES`. -/
def TEMP_PREFIXES : List String := ["tmp", "temp", "cache", "backup", "old", "bak"]

/-- The population `'0123456789ABCDEF'` of `generate_temp`'s hex draw. -/
def hexAlphabet : List Char := "0123456789ABCDEF".data

/-- The pattern composition of `FileNameGenerator.generate_temp` (lines
67-80): `p` is the `random.choice` pattern index (0-3), `pre` the index of
the `random.choice(TEMP_PREFIXES)` draw, `hx` the six indices of the
`random.choices('0123456789ABCDEF', k=6)` draw, `num` the value of
`random.randint(1000, 99999)`. -/
def composeTempName (p pre : Nat) (hx : List Nat) (num : Nat) : String :=
  let pr := TEMP_PREFIXES.getD pre "tmp"
  match p with
  | 0 => pr ++ String.mk (hx.map fun i => hexAlphabet.getD i '0')
  | 1 => pr ++ "_" ++ String.mk (natDigits num)
  | 2 => "~" ++ pr ++ String.mk (natDigits num)
  | _ => pr

/-- `FileNameGenerator.generate_temp(extension='.tmp')` (lines 64-83):
`return name + extension if extension else name`, where Python string
truthiness is non-emptiness. -/
def generate_temp (p pre : Nat) (hx : List Nat) (num : Nat)
    (extension : String := ".tmp") : String :=
  let name := composeTempName p pre hx num
  if extension.isEmpty then name else name ++ extension

/-! ## TaskSchedulerGenerator -/

/-- `TaskSchedulerGenerator.generate_days_interval` (lines 273-281):
`random.choices(range(1, 8), weights=[50,10,5,5,5,10,15])[0]`, with `r`
the uniform draw in `[0, 100)`. -/
def generate_days_interval (r : Nat) : Nat :=
  (weightedChoice [(1, 50), (2, 10), (3, 5), (4, 5), (5, 5), (6, 10), (7, 15)] r).getD 1

/-- The `formats` list of `generate_execution_time_limit` (lines 290-300). -/
def executionTimeLimitFormats : List String :=
  ["PT1H", "PT2H", "PT4H", "PT12H", "P1D", "P2D", "P3D", "P5D", "P7D"]

/-- `TaskSchedulerGenerator.generate_execution_time_limit` (lines 283-301):
`random.choice(formats)`, with `i` the uniform index in `[0, 9)`. -/
def generate_execution_time_limit (i : Nat) : String :=
  executionTimeLimitFormats.getD i "PT1H"

/-- `TaskSchedulerGenerator.generate_priority` (lines 303-319):
`random.choices([4,5,6,7,8], weights=[25,30,25,15,5])[0]`, with `r` the
uniform draw in `[0, 100)`. -/
def generate_priority (r : Nat) : Nat :=
  (weightedChoice [(4, 25), (5, 30), (6, 25), (7, 15), (8, 5)] r).getD 4

/-- Gregorian calendar date (year, month, day) of a day count since the Unix
epoch 1970-01-01, as computed by Python's `datetime` (standard
era/day-of-era civil-from-days conversion). -/
def civilFromDays (days : Nat) : Nat × Nat × Nat :=
  let z := days + 719468
  let era := z / 146097
  let doe := z % 146097
  let yoe := (doe - doe / 1460 + doe / 36524 - doe / 146096) / 365
  let y := yoe + era * 400
  let doy := doe - (365 * yoe + yoe / 4 - yoe / 100)
  let mp := (5 * doy + 2) / 153
  let d := doy - (153 * mp + 2) / 5 + 1
  let m := if mp < 10 then mp + 3 else mp - 9
  (if m ≤ 2 then y + 1 else y, m, d)

/-- `target_time.strftime('%Y-%m-%dT%H:%M:%S')` for a timestamp of `t`
seconds since the epoch. -/
def formatTimestamp (t : Nat) : List Char :=
  let ymd := civilFromDays (t / 86400)
  let secs := t % 86400
  padDigits 4 ymd.1 ++ '-' :: padDigits 2 ymd.2.1 ++ '-' :: padDigits 2 ymd.2.2
    ++ 'T' :: padDigits 2 (secs / 3600) ++ ':' :: padDigits 2 (secs % 3600 / 60)
    ++ ':' :: padDigits 2 (secs % 60)

/-- `TaskSchedulerGenerator.generate_start_boundary` (lines 252-271).
`now` is `datetime.now()` as seconds since the epoch; the draw
`random.randint(-24, 0)` of `hours_offset` is represented by its magnitude
`hOff` in `[0, 24]`; `minOff`, `secOff` are `random.randint(0, 59)` and
`micro` is `random.randint(1000000, 9999999)`.  The returned string is
`f"{target_time.strftime('%Y-%m-%dT%H:%M:%S')}.{microseconds}"`. -/
def generate_start_boundary (now hOff minOff secOff micro : Nat) : String :=
  let target_time := now + minOff * 60 + secOff - hOff * 3600
  String.mk (formatTimestamp target_time ++ '.' :: natDigits micro)

/-- The timestamp shape `YYYY-MM-DDTHH:MM:SS.fffffff`: fixed separators,
digit groups of widths 4,2,2,2,2,2 and a 7-digit sub-second group. -/
def timestampShape (l : List Char) : Prop :=
  ∃ yy mo dd hh mi ss sub : List Char,
    l = yy ++ '-' :: mo ++ '-' :: dd ++ 'T' :: hh ++ ':' :: mi ++ ':' :: ss ++ '.' :: sub ∧
    yy.length = 4 ∧ mo.length = 2 ∧ dd.length = 2 ∧ hh.length = 2 ∧
    mi.length = 2 ∧ ss.length = 2 ∧ sub.length = 7 ∧
    ∀ c ∈ yy ++ mo ++ dd ++ hh ++ mi ++ ss ++ sub, c.isDigit = true

/-! ## Helper lemmas -/

/-- Every key of `FALLBACK_PATHS` is also a key of `PATHS_BY_SHARE`, so a
share unknown to the primary table is unknown to the fallback table too. -/
lemma fallback_lookup_none {n : String} (h : PATHS_BY_SHARE.lookup n = none) :
    FALLBACK_PATHS.lookup n = none := by
  by_cases h1 : n = "C$"
  · subst h1; simp [PATHS_BY_SHARE, List.lookup] at h
  by_cases h2 : n = "ADMIN$"
  · subst h2; simp [PATHS_BY_SHARE, List.lookup] at h
  have e1 : (n == "C$") = false := beq_eq_false_iff_ne.mpr h1
  have e2 : (n == "ADMIN$") = false := beq_eq_false_iff_ne.mpr h2
  simp [FALLBACK_PATHS, List.lookup, e1, e2]

/-- On an unregistered normalized share, `resolvePath` is the constant
`"Temp\\"` whatever the `weighted` flag and the draw. -/
lemma resolvePath_of_lookup_none {n : String} (h : PATHS_BY_SHARE.lookup n = none)
    (w : Bool) (r : Nat) : resolvePath n w r = "Temp\\" := by
  unfold resolvePath
  rw [h, fallback_lookup_none h]
  rfl

lemma natDigitsGo_spec : ∀ (fuel n : Nat) (acc : List Char), n < fuel →
    natDigitsGo fuel n acc =
      (if n = 0 then ['0']
       else (Nat.digits 10 n).reverse.map fun d => Char.ofNat (48 + d)) ++ acc := by
  intro fuel
  induction fuel with
  | zero => intro n acc h; omega
  | succ f ih =>
    intro n acc h
    rw [natDigitsGo]
    by_cases h10 : n < 10
    · rw [if_pos h10]
      by_cases h0 : n = 0
      · subst h0; simp
      · rw [if_neg h0, Nat.digits_of_lt 10 n h0 h10]
        simp
    · rw [if_neg h10]
      have hdiv : n / 10 < f := by
        have := Nat.div_lt_self (by omega : 0 < n) (by omega : 1 < 10)
        omega
      rw [ih (n / 10) _ hdiv]
      have hne : ¬ n / 10 = 0 := by omega
      rw [if_neg hne, if_neg (by omega : ¬ n = 0)]
      rw [Nat.digits_def' (by norm_num : (1:ℕ) < 10) (by omega : 0 < n)]
      simp

lemma natDigits_eq (n : Nat) :
    natDigits n =
      if n = 0 then ['0']
      else (Nat.digits 10 n).reverse.map fun d => Char.ofNat (48 + d) := by
  have := natDigitsGo_spec (n + 1) n [] (by omega)
  simpa [natDigits] using this

lemma isDigit_ofNat_48_add {d : Nat} (hd : d < 10) :
    (Char.ofNat (48 + d)).isDigit = true := by
  interval_cases d <;> decide

lemma natDigits_all_digit (n : Nat) : ∀ c ∈ natDigits n, c.isDigit = true := by
  rw [natDigits_eq]
  by_cases h0 : n = 0
  · subst h0; intro c hc; simp at hc; subst hc; decide
  · rw [if_neg h0]
    intro c hc
    simp only [List.mem_map, List.mem_reverse] at hc
    obtain ⟨d, hd, rfl⟩ := hc
    exact isDigit_ofNat_48_add (Nat.digits_lt_base (by norm_num) hd)

lemma natDigits_ne_nil (n : Nat) : natDigits n ≠ [] := by
  rw [natDigits_eq]
  by_cases h0 : n = 0
  · simp [h0]
  · simp [h0, Nat.digits_ne_nil_iff_ne_zero]

lemma natDigits_length {k n : Nat} (h1 : 10 ^ k ≤ n) (h2 : n < 10 ^ (k + 1)) :
    (natDigits n).length = k + 1 := by
  have hn : n ≠ 0 := by
    have : (1:ℕ) ≤ 10 ^ k := Nat.one_le_pow _ _ (by norm_num)
    omega
  rw [natDigits_eq, if_neg hn]
  simp only [List.length_map, List.length_reverse]
  rw [Nat.digits_len 10 n (by norm_num) hn,
    Nat.log_eq_of_pow_le_of_lt_pow h1 h2]

lemma natDigits_length_le {w n : Nat} (hw : 1 ≤ w) (h : n < 10 ^ w) :
    (natDigits n).length ≤ w := by
  rcases eq_or_ne n 0 with rfl | hn
  · rw [natDigits_eq]; simpa using hw
  · rw [natDigits_eq, if_neg hn]
    simp only [List.length_map, List.length_reverse]
    rw [Nat.digits_len 10 n (by norm_num) hn]
    have := Nat.log_lt_of_lt_pow hn h
    omega

lemma padDigits_length {w n : Nat} (h : (natDigits n).length ≤ w) :
    (padDigits w n).length = w := by
  simp only [padDigits, List.length_append, List.length_replicate]
  omega

lemma padDigits_all_digit (w n : Nat) : ∀ c ∈ padDigits w n, c.isDigit = true := by
  intro c hc
  rcases List.mem_append.mp hc with h | h
  · rw [List.eq_of_mem_replicate h]; decide
  · exact natDigits_all_digit n c h

/-- A character list whose members all satisfy `isDigit` cannot end in a
dot. -/
lemma getLast?_ne_dot_of_forall {l : List Char} (h : ∀ c ∈ l, c ≠ '.') :
    l.getLast? ≠ some '.' := by
  intro hl
  have hm : '.' ∈ l := by
    obtain ⟨hne, heq⟩ := List.mem_getLast?_eq_getLast (Option.mem_def.mpr hl)
    rw [heq]
    exact List.getLast_mem hne
  exact h '.' hm rfl

/-! ## Claim theorems: PathGenerator -/

/-- C1: whenever the normalized share is a registered key of
`PATHS_BY_SHARE`, `get_path_for_share` with `weighted = False` returns the
path of the first-declared placement entry, independently of the random
draw; in particular `get_path_for_share("ADMIN$", weighted=False)` is
always `"Logs\\"`. -/
theorem get_path_for_share_priority_deterministic :
    (∀ share entries r r',
        PATHS_BY_SHARE.lookup (normalizeShare share) = some entries →
        get_path_for_share share false r = (entries.headD ("Temp\\", 0)).1 ∧
        get_path_for_share share false r = get_path_for_share share false r') ∧
    (∀ r, get_path_for_share "ADMIN$" false r = "Logs\\") := by
  constructor
  · intro share entries r r' h
    unfold get_path_for_share resolvePath
    rw [h]
    exact ⟨rfl, rfl⟩
  · intro r; rfl

theorem get_path_for_share_priority_deterministic_witness :
    PATHS_BY_SHARE.lookup (normalizeShare "ADMIN$") = some [("Logs\\", 80), ("Debug\\", 75)] ∧
    get_path_for_share "ADMIN$" false 0 =
      (([("Logs\\", 80), ("Debug\\", 75)] : List (String × Nat)).headD ("Temp\\", 0)).1 ∧
    get_path_for_share "ADMIN$" false 0 = get_path_for_share "ADMIN$" false 7 :=
  ⟨by decide,
   (get_path_for_share_priority_deterministic.1 "ADMIN$"
      [("Logs\\", 80), ("Debug\\", 75)] 0 7 (by decide)).1,
   (get_path_for_share_priority_deterministic.1 "ADMIN$"
      [("Logs\\", 80), ("Debug\\", 75)] 0 7 (by decide)).2⟩

/-- C2: a share whose normalized form has no entry in `PATHS_BY_SHARE`
resolves to the global default `"Temp\\"`, for any `weighted` flag and any
draw (the function is total, so no error is possible). -/
theorem get_path_for_share_unknown_share_default :
    ∀ share w r, PATHS_BY_SHARE.lookup (normalizeShare share) = none →
      get_path_for_share share w r = "Temp\\" := by
  intro share w r h
  exact resolvePath_of_lookup_none h w r

theorem get_path_for_share_unknown_share_default_witness :
    PATHS_BY_SHARE.lookup (normalizeShare "Z$") = none ∧
    get_path_for_share "Z$" true 0 = "Temp\\" ∧
    get_path_for_share "Z$" false 5 = "Temp\\" :=
  ⟨by decide,
   get_path_for_share_unknown_share_default "Z$" true 0 (by decide),
   get_path_for_share_unknown_share_default "Z$" false 5 (by decide)⟩

/-- C3: both resolvers uppercase the share and append a trailing `'$'`
before any lookup, so `"c$"`, `"C$"` and `"C"` resolve identically (given
the same draw). -/
theorem get_path_for_share_normalizes :
    (normalizeShare "c$" = "C$" ∧ normalizeShare "C$" = "C$" ∧ normalizeShare "C" = "C$") ∧
    (∀ share w r, get_path_for_share share w r = resolvePath (normalizeShare share) w r) ∧
    (∀ share, get_fallback_path share =
        (FALLBACK_PATHS.lookup (normalizeShare share)).getD "Temp\\") ∧
    (∀ w r, get_path_for_share "c$" w r = get_path_for_share "C$" w r ∧
        get_path_for_share "C" w r = get_path_for_share "C$" w r) ∧
    (get_fallback_path "c$" = get_fallback_path "C$" ∧
        get_fallback_path "C" = get_fallback_path "C$") := by
  refine ⟨⟨by decide, by decide, by decide⟩, fun _ _ _ => rfl, fun _ => rfl,
    fun w r => ?_, by decide⟩
  have h1 : normalizeShare "c$" = "C$" := by decide
  have h2 : normalizeShare "C" = "C$" := by decide
  have h3 : normalizeShare "C$" = "C$" := by decide
  unfold get_path_for_share
  rw [h1, h2, h3]
  exact ⟨rfl, rfl⟩

/-- C4: for each registered share, the dedicated fallback path does not
occur among the relative paths of that share's primary placement
entries. -/
theorem fallback_not_primary :
    (((PATHS_BY_SHARE.lookup "C$").getD []).map Prod.fst).contains
      (get_fallback_path "C$") = false ∧
    (((PATHS_BY_SHARE.lookup "ADMIN$").getD []).map Prod.fst).contains
      (get_fallback_path "ADMIN$") = false := by
  decide

/-- C6: `get_fallback_path` is a pure function of the normalized share
alone (it takes no random draw), returning the registered fallback —
`"Windows\\Temp\\"` for `C$` — or the global default `"Temp\\"` when
unregistered. -/
theorem get_fallback_path_deterministic :
    (∀ share, get_fallback_path share =
        (FALLBACK_PATHS.lookup (normalizeShare share)).getD "Temp\\") ∧
    get_fallback_path "C$" = "Windows\\Temp\\" ∧
    get_fallback_path "ADMIN$" = "Temp\\" ∧
    get_fallback_path "Z$" = "Temp\\" :=
  ⟨fun _ => rfl, by decide, by decide, by decide⟩

/-- C9: on an unregistered normalized share, `get_path_for_share` agrees
with `get_fallback_path` for either `weighted` flag and ignores the random
draw entirely. -/
theorem get_path_for_share_unknown_eq_fallback :
    ∀ share w r r', PATHS_BY_SHARE.lookup (normalizeShare share) = none →
      get_path_for_share share w r = get_fallback_path share ∧
      get_path_for_share share w r = get_path_for_share share w r' := by
  intro share w r r' h
  have hf := fallback_lookup_none h
  unfold get_path_for_share get_fallback_path
  rw [resolvePath_of_lookup_none h w r, hf]
  exact ⟨rfl, (resolvePath_of_lookup_none h w r').symm⟩

theorem get_path_for_share_unknown_eq_fallback_witness :
    PATHS_BY_SHARE.lookup (normalizeShare "Z$") = none ∧
    get_path_for_share "Z$" true 3 = get_fallback_path "Z$" ∧
    get_path_for_share "Z$" true 3 = get_path_for_share "Z$" true 11 :=
  ⟨by decide,
   (get_path_for_share_unknown_eq_fallback "Z$" true 3 11 (by decide)).1,
   (get_path_for_share_unknown_eq_fallback "Z$" true 3 11 (by decide)).2⟩

/-! ## Claim theorems: TaskSchedulerGenerator value ranges -/

/-- C5: whatever the uniform draw (bounded by the total weight resp. the
population size), `generate_days_interval` lands in `[1,7]`,
`generate_execution_time_limit` returns one of the 9 declared duration
codes and `generate_priority` lands in `{4,5,6,7,8}`. -/
theorem task_value_ranges :
    (∀ r, r < 100 → 1 ≤ generate_days_interval r ∧ generate_days_interval r ≤ 7) ∧
    (∀ i, i < 9 → generate_execution_time_limit i ∈ executionTimeLimitFormats) ∧
    (∀ r, r < 100 → generate_priority r ∈ ([4, 5, 6, 7, 8] : List Nat)) :=
  ⟨by decide, by decide, by decide⟩

theorem task_value_ranges_witness :
    ((3:Nat) < 100 ∧ 1 ≤ generate_days_interval 3 ∧ generate_days_interval 3 ≤ 7) ∧
    ((2:Nat) < 9 ∧ generate_execution_time_limit 2 ∈ executionTimeLimitFormats) ∧
    ((60:Nat) < 100 ∧ generate_priority 60 ∈ ([4, 5, 6, 7, 8] : List Nat)) :=
  ⟨⟨by decide, task_value_ranges.1 3 (by decide)⟩,
   ⟨by decide, task_value_ranges.2.1 2 (by decide)⟩,
   ⟨by decide, task_value_ranges.2.2 60 (by decide)⟩⟩

/-! ## Claim theorems: FileNameGenerator.generate_temp -/

lemma ne_dot_of_isDigit {c : Char} (h : c.isDigit = true) : c ≠ '.' := by
  intro he
  subst he
  exact absurd h (by decide)

lemma hexAlphabet_getD_ne_dot (i : Nat) : hexAlphabet.getD i '0' ≠ '.' := by
  rcases Nat.lt_or_ge i 16 with h | h
  · interval_cases i <;> decide
  · rw [List.getD_eq_default _ _ (by simpa [hexAlphabet] using h)]
    decide

lemma natDigits_getLast_ne_dot (n : Nat) : (natDigits n).getLast? ≠ some '.' :=
  getLast?_ne_dot_of_forall fun c hc => ne_dot_of_isDigit (natDigits_all_digit n c hc)

/-- C8: with the empty extension, `generate_temp` returns exactly the
composed base name (and that name never ends in a dot); with a non-empty
extension, the result is the base name followed by exactly that
extension. -/
theorem generate_temp_extension :
    (∀ p pre hx num, generate_temp p pre hx num "" = composeTempName p pre hx num) ∧
    (∀ p pre hx num ext, ext ≠ "" →
        generate_temp p pre hx num ext = composeTempName p pre hx num ++ ext ∧
        ext.data <:+ (generate_temp p pre hx num ext).data) ∧
    (∀ p pre hx num, pre < 6 → hx ≠ [] →
        (generate_temp p pre hx num "").data.getLast? ≠ some '.') := by
  refine ⟨fun p pre hx num => rfl, fun p pre hx num ext hext => ?_, ?_⟩
  · have he : ext.isEmpty = false := by
      cases hb : ext.isEmpty
      · rfl
      · exact absurd ((String.isEmpty_iff ext).mp hb) hext
    have heq : generate_temp p pre hx num ext = composeTempName p pre hx num ++ ext := by
      unfold generate_temp
      rw [he]
      simp
    refine ⟨heq, ?_⟩
    rw [heq, String.data_append]
    exact List.suffix_append _ _
  · intro p pre hx num hpre hhx
    show (composeTempName p pre hx num).data.getLast? ≠ some '.'
    match p with
    | 0 =>
      show ((TEMP_PREFIXES.getD pre "tmp" ++
          String.mk (hx.map fun i => hexAlphabet.getD i '0')).data).getLast? ≠ some '.'
      rw [String.data_append,
        List.getLast?_append_of_ne_nil _ (by simpa using hhx)]
      exact getLast?_ne_dot_of_forall fun c hc => by
        simp only [String.data, List.mem_map] at hc
        obtain ⟨i, _, rfl⟩ := hc
        exact hexAlphabet_getD_ne_dot i
    | 1 =>
      show ((TEMP_PREFIXES.getD pre "tmp" ++ "_" ++
          String.mk (natDigits num)).data).getLast? ≠ some '.'
      rw [String.data_append,
        List.getLast?_append_of_ne_nil _ (by simpa using natDigits_ne_nil num)]
      simpa using natDigits_getLast_ne_dot num
    | 2 =>
      show (("~" ++ TEMP_PREFIXES.getD pre "tmp" ++
          String.mk (natDigits num)).data).getLast? ≠ some '.'
      rw [String.data_append,
        List.getLast?_append_of_ne_nil _ (by simpa using natDigits_ne_nil num)]
      simpa using natDigits_getLast_ne_dot num
    | (n + 3) =>
      show ((TEMP_PREFIXES.getD pre "tmp").data).getLast? ≠ some '.'
      interval_cases pre <;> decide

theorem generate_temp_extension_witness :
    (generate_temp 0 0 [1, 2, 3, 4, 5, 6] 12345 "" =
        composeTempName 0 0 [1, 2, 3, 4, 5, 6] 12345) ∧
    ((".log" : String) ≠ "" ∧
      generate_temp 1 0 [1, 2, 3, 4, 5, 6] 12345 ".log" =
        composeTempName 1 0 [1, 2, 3, 4, 5, 6] 12345 ++ ".log" ∧
      ".log".data <:+ (generate_temp 1 0 [1, 2, 3, 4, 5, 6] 12345 ".log").data) ∧
    ((0:Nat) < 6 ∧ ([1, 2, 3, 4, 5, 6] : List Nat) ≠ [] ∧
      (generate_temp 0 0 [1, 2, 3, 4, 5, 6] 12345 "").data.getLast? ≠ some '.') :=
  ⟨generate_temp_extension.1 0 0 [1, 2, 3, 4, 5, 6] 12345,
   ⟨by decide,
    (generate_temp_extension.2.1 1 0 [1, 2, 3, 4, 5, 6] 12345 ".log" (by decide)).1,
    (generate_temp_extension.2.1 1 0 [1, 2, 3, 4, 5, 6] 12345 ".log" (by decide)).2⟩,
   ⟨by decide, by decide,
    generate_temp_extension.2.2 0 0 [1, 2, 3, 4, 5, 6] 12345 (by decide) (by decide)⟩⟩

/-- C10: calling `generate_temp` without an extension argument uses the
default `'.tmp'`, so the result is the base name followed by `".tmp"` and
in particular always ends with `".tmp"`. -/
theorem generate_temp_default_tmp :
    ∀ p pre hx num,
      generate_temp p pre hx num = composeTempName p pre hx num ++ ".tmp" ∧
      ".tmp".data <:+ (generate_temp p pre hx num).data := by
  intro p pre hx num
  refine ⟨rfl, ?_⟩
  show ".tmp".data <:+ (composeTempName p pre hx num ++ ".tmp").data
  rw [String.data_append]
  exact List.suffix_append _ _

/-! ## Claim theorems: generate_start_boundary -/

/-- For day counts up to the year ≈9600, the civil conversion yields a
4-digit year and (trivially) 2-digit month and day fields. -/
lemma civilFromDays_bounds (days : Nat) (h : days ≤ 2500000) :
    1000 ≤ (civilFromDays days).1 ∧ (civilFromDays days).1 ≤ 9999 ∧
    (civilFromDays days).2.1 ≤ 99 ∧ (civilFromDays days).2.2 ≤ 99 := by
  dsimp only [civilFromDays]
  split_ifs <;> omega

lemma formatTimestamp_def (t : Nat) :
    formatTimestamp t =
      padDigits 4 (civilFromDays (t / 86400)).1 ++ '-' ::
      padDigits 2 (civilFromDays (t / 86400)).2.1 ++ '-' ::
      padDigits 2 (civilFromDays (t / 86400)).2.2 ++ 'T' ::
      padDigits 2 (t % 86400 / 3600) ++ ':' ::
      padDigits 2 (t % 86400 % 3600 / 60) ++ ':' ::
      padDigits 2 (t % 86400 % 60) := rfl

/-- The formatted timestamp followed by a 7-digit sub-second group has the
claimed shape, for any timestamp below the year ≈9600. -/
lemma formatTimestamp_shape {t micro : Nat} (ht : t ≤ 210000000000)
    (h1 : 1000000 ≤ micro) (h2 : micro ≤ 9999999) :
    timestampShape (formatTimestamp t ++ '.' :: natDigits micro) := by
  have hdays : t / 86400 ≤ 2500000 := by omega
  obtain ⟨hy1, hy2, hm99, hd99⟩ := civilFromDays_bounds (t / 86400) hdays
  refine ⟨padDigits 4 (civilFromDays (t / 86400)).1,
    padDigits 2 (civilFromDays (t / 86400)).2.1,
    padDigits 2 (civilFromDays (t / 86400)).2.2,
    padDigits 2 (t % 86400 / 3600),
    padDigits 2 (t % 86400 % 3600 / 60),
    padDigits 2 (t % 86400 % 60),
    natDigits micro, ?_, ?_, ?_, ?_, ?_, ?_, ?_, ?_, ?_⟩
  · rw [formatTimestamp_def]
  · exact padDigits_length (natDigits_length_le (by norm_num)
      (show _ < 10 ^ 4 by norm_num; omega))
  · exact padDigits_length (natDigits_length_le (by norm_num)
      (show _ < 10 ^ 2 by norm_num; omega))
  · exact padDigits_length (natDigits_length_le (by norm_num)
      (show _ < 10 ^ 2 by norm_num; omega))
  · exact padDigits_length (natDigits_length_le (by norm_num)
      (show _ < 10 ^ 2 by norm_num; omega))
  · exact padDigits_length (natDigits_length_le (by norm_num)
      (show _ < 10 ^ 2 by norm_num; omega))
  · exact padDigits_length (natDigits_length_le (by norm_num)
      (show _ < 10 ^ 2 by norm_num; omega))
  · exact natDigits_length (show 10 ^ 6 ≤ micro by norm_num; omega)
      (show micro < 10 ^ (6 + 1) by norm_num; omega)
  · intro c hc
    simp only [List.mem_append, or_assoc] at hc
    rcases hc with h | h | h | h | h | h | h
    · exact padDigits_all_digit _ _ c h
    · exact padDigits_all_digit _ _ c h
    · exact padDigits_all_digit _ _ c h
    · exact padDigits_all_digit _ _ c h
    · exact padDigits_all_digit _ _ c h
    · exact padDigits_all_digit _ _ c h
    · exact natDigits_all_digit _ c h

/-- C7: for any clock value (one day past the epoch up to far-future
bounds) and any draws in their `randint` ranges, `generate_start_boundary`
returns a string of the exact shape `YYYY-MM-DDTHH:MM:SS.fffffff`, whose
sub-second part is the 7-digit draw from `[1000000, 9999999]` and whose
second-precision part is the formatted value of the current time shifted
by `-hOff` hours plus `minOff` minutes and `secOff` seconds. -/
theorem generate_start_boundary_shape :
    ∀ now hOff minOff secOff micro,
      hOff ≤ 24 → minOff ≤ 59 → secOff ≤ 59 →
      1000000 ≤ micro → micro ≤ 9999999 →
      86400 ≤ now → now ≤ 200000000000 →
      timestampShape (generate_start_boundary now hOff minOff secOff micro).data ∧
      (generate_start_boundary now hOff minOff secOff micro).data =
        formatTimestamp (now + minOff * 60 + secOff - hOff * 3600) ++
          '.' :: natDigits micro := by
  intro now hOff minOff secOff micro hho hmo hso hmu1 hmu2 hn1 hn2
  have hdata : (generate_start_boundary now hOff minOff secOff micro).data =
      formatTimestamp (now + minOff * 60 + secOff - hOff * 3600) ++
        '.' :: natDigits micro := rfl
  refine ⟨?_, hdata⟩
  rw [hdata]
  exact formatTimestamp_shape (by omega) hmu1 hmu2

theorem generate_start_boundary_shape_witness :
    ((5:Nat) ≤ 24 ∧ (10:Nat) ≤ 59 ∧ (20:Nat) ≤ 59 ∧
      (1000000:Nat) ≤ 1337324 ∧ (1337324:Nat) ≤ 9999999 ∧
      (86400:Nat) ≤ 1700000000 ∧ (1700000000:Nat) ≤ 200000000000) ∧
    timestampShape (generate_start_boundary 1700000000 5 10 20 1337324).data ∧
    (generate_start_boundary 1700000000 5 10 20 1337324).data =
      formatTimestamp (1700000000 + 10 * 60 + 20 - 5 * 3600) ++
        '.' :: natDigits 1337324 :=
  ⟨⟨by decide, by decide, by decide, by decide, by decide, by decide, by decide⟩,
   (generate_start_boundary_shape 1700000000 5 10 20 1337324 (by decide) (by decide)
      (by decide) (by decide) (by decide) (by decide) (by decide)).1,
   (generate_start_boundary_shape 1700000000 5 10 20 1337324 (by decide) (by decide)
      (by decide) (by decide) (by decide) (by decide) (by decide)).2⟩

end NameGen
